import Mathlib

/-!
Shallow embedding of the CHIP-8 execution engine from `src/chip8.cpp` /
`src/chip8.h` (class `Chip8`), together with theorems checking the
natural-language specification against it.

Modelling conventions:
* Machine integers are `Nat` with explicit truncation: a `uint8_t` read is
  taken modulo 256, a `uint8_t`/`uint16_t` assignment stores the value
  modulo 256 / 65536 where the source expression can exceed the width.
* The byte array `memory`, the register file `V`, the call `stack` and the
  bit-grid `display` are total functions from `Nat`; the source only ever
  indexes them inside their C++ bounds except on the fatal paths that the
  spec itself discusses, where the function model records the out-of-range
  write at its literal index (the source's union/layout aliasing is a layout
  trick per the spec's design notes, not a behavioral contract).
* The `std::mt19937` generator of the `Cxkk` instruction is modelled as an
  oracle stream `rand` with a cursor `randIdx`.
* File I/O in `LoadProgram` is modelled by a `LoadFile` value describing the
  outcome of `stat`/`open`/`read` on the file.
-/

/-- Pointwise update of a total function, used for all array writes. -/
def upd {α : Type} (f : Nat → α) (i : Nat) (v : α) : Nat → α :=
  fun j => if j = i then v else f j

/-- The machine state of the interpreter: the members of class `Chip8`
(`src/chip8.h`) that the execution engine reads or writes. -/
structure Chip8 where
  /-- 4KB byte-addressable memory (`uint8_t memory[0x1000]`). -/
  memory : Nat → Nat
  /-- 16 general purpose 8-bit registers (`uint8_t V[16]`). -/
  V : Nat → Nat
  /-- 16-bit address register `I`. -/
  I : Nat
  /-- 16-bit program counter `PC`. -/
  PC : Nat
  /-- Call stack (`uint16_t stack[16]`). -/
  stack : Nat → Nat
  /-- Stack pointer (`uint8_t SP`). -/
  SP : Nat
  /-- Key-wait latch (`uint8_t waitingKey`): flag bit 0x10 plus target register. -/
  waitingKey : Nat
  /-- 8-bit delay timer. -/
  delayTimer : Nat
  /-- 8-bit sound timer. -/
  soundTimer : Nat
  /-- Monochrome display bits (`std::bitset<64*32> display`), cell-indexed. -/
  display : Nat → Bool
  /-- Bit field of currently pressed keys (`uint16_t keys`). -/
  keys : Nat
  /-- Redraw flag `screenUpdated`. -/
  screenUpdated : Bool
  /-- Fatal-halt flag `halt`. -/
  halt : Bool
  /-- Oracle stream of random draws for `Cxkk`. -/
  rand : Nat → Nat
  /-- Cursor into the random stream. -/
  randIdx : Nat

/-- `Chip8::Halt`: set the fatal-halt flag (the diagnostic printout has no
machine-visible effect).  Note the `SANITY_CHECK` macro only calls `Halt`;
it does not return from the instruction. -/
def haltS (s : Chip8) : Chip8 := { s with halt := true }

/-- Big-endian two-byte opcode fetch at `PC`
(`opCode = (memory[PC] << 8) | memory[PC+1]`). -/
def fetchOp (s : Chip8) : Nat :=
  (s.memory s.PC % 256) * 256 + s.memory (s.PC + 1) % 256

/-- One sprite bit of the `Dxyn` draw loop:
`(memory[(I+height) & 0xFFF] >> (7-bit)) & 0x1`. -/
def spriteBit (m : Nat → Nat) (iaddr bit : Nat) : Nat :=
  (m (iaddr &&& 0xFFF) % 256) >>> (7 - bit) &&& 0x1

/-- Body of the inner (`bit`) loop of `Dxyn`: XOR one sprite bit into the
cell `rowStart + ((pixelX+bit) % 64)`, recording a collision in the second
component (the `V[0xF]` accumulator). -/
def blitBit (m : Nat → Nat) (iaddr px rowStart : Nat)
    (acc : (Nat → Bool) × Nat) (bit : Nat) : (Nat → Bool) × Nat :=
  let cell := rowStart + (px + bit) % 64
  let pixel := xor (acc.1 cell) (spriteBit m iaddr bit = 1)
  (upd acc.1 cell pixel, if pixel = false ∧ acc.1 cell = true then 1 else acc.2)

/-- The inner loop of `Dxyn`: blit the 8 bits of one sprite row. -/
def blitRow (m : Nat → Nat) (iaddr px rowStart : Nat)
    (acc : (Nat → Bool) × Nat) : (Nat → Bool) × Nat :=
  (List.range 8).foldl (blitBit m iaddr px rowStart) acc

/-- The outer (`height`) loop of `Dxyn`: blit `n` sprite rows read from
`memory[I..]` at pixel position `(px, py)`; row `height` lands on display
row `(py+height) % 32` (`rowStart = W * ((pixelY+height) % H)` with `W = 64`,
`H = 32`).  Returns the new display and the final `V[0xF]` value (the
accumulator starts at 0, matching `V[0xF] = 0x0` before the loop). -/
def drawSprite (m : Nat → Nat) (i px py n : Nat) (d : Nat → Bool) :
    (Nat → Bool) × Nat :=
  (List.range n).foldl
    (fun acc height => blitRow m (i + height) px (64 * ((py + height) % 32)) acc)
    (d, 0)

/-- Opcode field `w = (opCode >> 12) & 0xF`. -/
def opW (op : Nat) : Nat := op >>> 12 &&& 0xF

/-- Opcode field `x = (opCode >> 8) & 0xF`. -/
def opX (op : Nat) : Nat := op >>> 8 &&& 0xF

/-- Opcode field `y = (opCode >> 4) & 0xF`. -/
def opY (op : Nat) : Nat := op >>> 4 &&& 0xF

/-- Opcode field `z = opCode & 0xF`. -/
def opZ (op : Nat) : Nat := op &&& 0xF

/-- Opcode field `kk = opCode & 0xFF`. -/
def opKK (op : Nat) : Nat := op &&& 0xFF

/-- Opcode field `nnn = opCode & 0xFFF`. -/
def opNNN (op : Nat) : Nat := op &&& 0xFFF

/-- `00E0` CLS: clear the display (`ClearScreen`). -/
def execCLS (s : Chip8) : Chip8 :=
  { s with display := fun _ => false, screenUpdated := true }

/-- `00EE` RET.  `SANITY_CHECK(SP > 0, "Stack out of bounds")` sets halt but
does not return, so `PC = stack[SP--]` still runs on the same registers
(with SP = 0 the uint8 post-decrement wraps SP to 255). -/
def execRET (s : Chip8) : Chip8 :=
  { s with halt := if s.SP > 0 then s.halt else true,
           PC := s.stack s.SP % 65536, SP := (s.SP + 255) % 256 }

/-- `1nnn` JP. -/
def execJP (s : Chip8) (nnn : Nat) : Chip8 := { s with PC := nnn }

/-- `2nnn` CALL.  `SANITY_CHECK(SP < STACK_SIZE-1, "Stack overflow")` sets
halt but does not return, so `stack[++SP] = PC; PC = nnn` still runs (with
SP = 15 this writes slot 16, one past the 16-entry array). -/
def execCALL (s : Chip8) (nnn : Nat) : Chip8 :=
  { s with halt := if s.SP < 15 then s.halt else true,
           SP := (s.SP + 1) % 256,
           stack := upd s.stack ((s.SP + 1) % 256) (s.PC % 65536),
           PC := nnn }

/-- `3xkk` SE Vx, byte. -/
def execSE (s : Chip8) (x kk : Nat) : Chip8 :=
  if s.V x % 256 = kk then { s with PC := (s.PC + 2) % 65536 } else s

/-- `4xkk` SNE Vx, byte. -/
def execSNE (s : Chip8) (x kk : Nat) : Chip8 :=
  if s.V x % 256 ≠ kk then { s with PC := (s.PC + 2) % 65536 } else s

/-- `5xy0` SE Vx, Vy. -/
def execSEr (s : Chip8) (x y : Nat) : Chip8 :=
  if s.V x % 256 = s.V y % 256 then { s with PC := (s.PC + 2) % 65536 } else s

/-- `6xkk` LD Vx, byte. -/
def execLD (s : Chip8) (x kk : Nat) : Chip8 := { s with V := upd s.V x kk }

/-- `7xkk` ADD Vx, byte (wrapping uint8 add). -/
def execADDb (s : Chip8) (x kk : Nat) : Chip8 :=
  { s with V := upd s.V x ((s.V x % 256 + kk) % 256) }

/-- `8xy0` LD Vx, Vy. -/
def execMOV (s : Chip8) (x y : Nat) : Chip8 :=
  { s with V := upd s.V x (s.V y % 256) }

/-- `8xy1` OR Vx, Vy. -/
def execOR (s : Chip8) (x y : Nat) : Chip8 :=
  { s with V := upd s.V x ((s.V x % 256) ||| (s.V y % 256)) }

/-- `8xy2` AND Vx, Vy. -/
def execAND (s : Chip8) (x y : Nat) : Chip8 :=
  { s with V := upd s.V x ((s.V x % 256) &&& (s.V y % 256)) }

/-- `8xy3` XOR Vx, Vy. -/
def execXOR (s : Chip8) (x y : Nat) : Chip8 :=
  { s with V := upd s.V x ((s.V x % 256) ^^^ (s.V y % 256)) }

/-- `8xy4` ADD Vx, Vy:
`uint16_t sum = V[x] + V[y]; V[0xF] = sum >> 8; V[x] = sum & 0xFF;`
(VF is written first, then Vx). -/
def execADD (s : Chip8) (x y : Nat) : Chip8 :=
  let sum := (s.V x % 256 + s.V y % 256) % 65536
  { s with V := upd (upd s.V 0xF (sum >>> 8)) x (sum &&& 0xFF) }

/-- `8xy5` SUB Vx, Vy:
`uint16_t sub = V[x] - V[y]; V[0xF] = !(sub >> 8); V[x] = sub & 0xFF;`. -/
def execSUB (s : Chip8) (x y : Nat) : Chip8 :=
  let sub := (s.V x % 256 + 65536 - s.V y % 256) % 65536
  { s with V := upd (upd s.V 0xF (if sub >>> 8 = 0 then 1 else 0)) x (sub &&& 0xFF) }

/-- `8xy6` SHR: `V[0xF] = V[y] & 0x1; V[x] = V[y] >> 1;` — the second
statement reads the register file after the first write. -/
def execSHR (s : Chip8) (x y : Nat) : Chip8 :=
  let vA := upd s.V 0xF (s.V y % 256 &&& 0x1)
  { s with V := upd vA x ((vA y % 256) >>> 1) }

/-- `8xy7` SUBN Vx, Vy:
`uint16_t sub = V[y] - V[x]; V[0xF] = !(sub >> 8); V[x] = sub & 0xFF;`. -/
def execSUBN (s : Chip8) (x y : Nat) : Chip8 :=
  let sub := (s.V y % 256 + 65536 - s.V x % 256) % 65536
  { s with V := upd (upd s.V 0xF (if sub >>> 8 = 0 then 1 else 0)) x (sub &&& 0xFF) }

/-- `8xyE` SHL: `V[0xF] = V[y] >> 7; V[x] = V[y] << 1;` — the second
statement reads the register file after the first write. -/
def execSHL (s : Chip8) (x y : Nat) : Chip8 :=
  let vA := upd s.V 0xF ((s.V y % 256) >>> 7)
  { s with V := upd vA x (((vA y % 256) <<< 1) % 256) }

/-- `9xy0` SNE Vx, Vy. -/
def execSNEr (s : Chip8) (x y : Nat) : Chip8 :=
  if s.V x % 256 ≠ s.V y % 256 then { s with PC := (s.PC + 2) % 65536 } else s

/-- `Annn` LD I, addr. -/
def execLDI (s : Chip8) (nnn : Nat) : Chip8 := { s with I := nnn }

/-- `Bnnn` JP V0, addr (uint16 `PC = nnn + V[0]`). -/
def execJPV0 (s : Chip8) (nnn : Nat) : Chip8 :=
  { s with PC := (nnn + s.V 0 % 256) % 65536 }

/-- `Cxkk` RND Vx, byte: `V[x] = uniform_int_distribution(0,255)(rng) & kk`,
with the generator modelled as the oracle stream `rand`. -/
def execRND (s : Chip8) (x kk : Nat) : Chip8 :=
  { s with V := upd s.V x ((s.rand s.randIdx % 256) &&& kk),
           randIdx := s.randIdx + 1 }

/-- `Dxyn` DRW.  `SANITY_CHECK(I+z < MAX_MEMORY, "Invalid memory access by
DRW")` sets halt but does not return, so the draw loop still runs.  Note
the statement order: `V[0xF] = 0x0` runs BEFORE `pixelX = V[x];
pixelY = V[y]`, so with x = 0xF or y = 0xF the pixel coordinate reads the
just-cleared flag register, i.e. 0, not the old VF. -/
def execDRW (s : Chip8) (x y z : Nat) : Chip8 :=
  let vA := upd s.V 0xF 0
  let r := drawSprite s.memory s.I (vA x % 256) (vA y % 256) z s.display
  { s with halt := if s.I + z < 4096 then s.halt else true,
           display := r.1, V := upd vA 0xF r.2, screenUpdated := true }

/-- `Ex9E` SKP Vx: `if(keys & (1 << V[x])) PC += 2;`. -/
def execSKP (s : Chip8) (x : Nat) : Chip8 :=
  if s.keys % 65536 &&& (1 <<< (s.V x % 256)) ≠ 0
  then { s with PC := (s.PC + 2) % 65536 } else s

/-- `ExA1` SKNP Vx. -/
def execSKNP (s : Chip8) (x : Nat) : Chip8 :=
  if s.keys % 65536 &&& (1 <<< (s.V x % 256)) = 0
  then { s with PC := (s.PC + 2) % 65536 } else s

/-- `Fx07` LD Vx, DT. -/
def execLDDT (s : Chip8) (x : Nat) : Chip8 :=
  { s with V := upd s.V x (s.delayTimer % 256) }

/-- `Fx0A` LD Vx, K: `waitingKey = WAITINGKEY_FLAG | x`. -/
def execWAIT (s : Chip8) (x : Nat) : Chip8 :=
  { s with waitingKey := 0x10 ||| x }

/-- `Fx15` LD DT, Vx. -/
def execSTDT (s : Chip8) (x : Nat) : Chip8 :=
  { s with delayTimer := s.V x % 256 }

/-- `Fx18` LD ST, Vx. -/
def execSTST (s : Chip8) (x : Nat) : Chip8 :=
  { s with soundTimer := s.V x % 256 }

/-- `Fx1E` ADD I, Vx (uint16 add). -/
def execADDI (s : Chip8) (x : Nat) : Chip8 :=
  { s with I := (s.I + s.V x % 256) % 65536 }

/-- `Fx29` LD F, Vx: `I = &font[(V[x] & 0xF)*5] - memory`; the `font` member
sits at byte offset 56 of the overlapping storage union. -/
def execFONT (s : Chip8) (x : Nat) : Chip8 :=
  { s with I := 56 + (s.V x % 256 &&& 0xF) * 5 }

/-- `Fx33` LD B, Vx.  `SANITY_CHECK(I+2 < MAX_MEMORY, "Invalid memory access
by LD")` sets halt but does not return, so the three BCD stores still run. -/
def execBCD (s : Chip8) (x : Nat) : Chip8 :=
  { s with
      halt := if s.I + 2 < 4096 then s.halt else true,
      memory :=
        upd (upd (upd s.memory s.I ((s.V x % 256) / 100 % 10))
            (s.I + 1) ((s.V x % 256) / 10 % 10))
          (s.I + 2) (s.V x % 256 % 10) }

/-- `Fx55` LD [I], Vx.  `SANITY_CHECK(I+x < MAX_MEMORY, "Invalid memory
access by LD")` sets halt but does not return, so the register stores and
`I += x+1` still run. -/
def execSTM (s : Chip8) (x : Nat) : Chip8 :=
  { s with
      halt := if s.I + x < 4096 then s.halt else true,
      memory :=
        (List.range (x + 1)).foldl (fun m i => upd m (s.I + i) (s.V i % 256)) s.memory,
      I := (s.I + x + 1) % 65536 }

/-- `Fx65` LD Vx, [I].  `SANITY_CHECK(I+x < MAX_MEMORY, "Invalid memory
access by LD")` sets halt but does not return, so the register loads and
`I += x+1` still run. -/
def execLDM (s : Chip8) (x : Nat) : Chip8 :=
  { s with
      halt := if s.I + x < 4096 then s.halt else true,
      V :=
        (List.range (x + 1)).foldl (fun v i => upd v i (s.memory (s.I + i) % 256)) s.V,
      I := (s.I + x + 1) % 65536 }

/-- The opcode dispatch chain of `Chip8::ExecuteInstruction`
(`src/chip8.cpp` lines 558-792), applied to the state `s` in which `PC` has
already been advanced past the fetched instruction word `op`.  Each
`if`/`else if` of the source appears in order, its block split into the
branch function named beside it. -/
def exec (s : Chip8) (op : Nat) : Chip8 :=
  let w := opW op
  let x := opX op
  let y := opY op
  let z := opZ op
  let kk := opKK op
  let nnn := opNNN op
  if op = 0x00E0 then execCLS s
  else if op = 0x00EE then execRET s
  else if w = 0x1 then execJP s nnn
  else if w = 0x2 then execCALL s nnn
  else if w = 0x3 then execSE s x kk
  else if w = 0x4 then execSNE s x kk
  else if w = 0x5 ∧ z = 0x0 then execSEr s x y
  else if w = 0x6 then execLD s x kk
  else if w = 0x7 then execADDb s x kk
  else if w = 0x8 ∧ z = 0x0 then execMOV s x y
  else if w = 0x8 ∧ z = 0x1 then execOR s x y
  else if w = 0x8 ∧ z = 0x2 then execAND s x y
  else if w = 0x8 ∧ z = 0x3 then execXOR s x y
  else if w = 0x8 ∧ z = 0x4 then execADD s x y
  else if w = 0x8 ∧ z = 0x5 then execSUB s x y
  else if w = 0x8 ∧ z = 0x6 then execSHR s x y
  else if w = 0x8 ∧ z = 0x7 then execSUBN s x y
  else if w = 0x8 ∧ z = 0xE then execSHL s x y
  else if w = 0x9 ∧ z = 0x0 then execSNEr s x y
  else if w = 0xA then execLDI s nnn
  else if w = 0xB then execJPV0 s nnn
  else if w = 0xC then execRND s x kk
  else if w = 0xD then execDRW s x y z
  else if w = 0xE ∧ kk = 0x9E then execSKP s x
  else if w = 0xE ∧ kk = 0xA1 then execSKNP s x
  else if w = 0xF ∧ kk = 0x07 then execLDDT s x
  else if w = 0xF ∧ kk = 0x0A then execWAIT s x
  else if w = 0xF ∧ kk = 0x15 then execSTDT s x
  else if w = 0xF ∧ kk = 0x18 then execSTST s x
  else if w = 0xF ∧ kk = 0x1E then execADDI s x
  else if w = 0xF ∧ kk = 0x29 then execFONT s x
  else if w = 0xF ∧ kk = 0x33 then execBCD s x
  else if w = 0xF ∧ kk = 0x55 then execSTM s x
  else if w = 0xF ∧ kk = 0x65 then execLDM s x
  else if w = 0x0 then s
  else haltS s

/-- `Chip8::ExecuteInstruction`: refuse when halted, halt on a PC outside
`[0x200, 0x1000)` (this path does return early), otherwise fetch the
big-endian opcode, advance `PC` by 2 and dispatch. -/
def step (s : Chip8) : Chip8 :=
  if s.halt then s
  else if ¬(0x200 ≤ s.PC ∧ s.PC < 0x1000) then haltS s
  else exec { s with PC := (s.PC + 2) % 65536 } (fetchOp s)

/-- Iterated instruction execution. -/
def stepN : Nat → Chip8 → Chip8
  | 0, s => s
  | n + 1, s => stepN n (step s)

/-- `Chip8::Reset` (with `ClearScreen` inlined): note that neither `memory`
nor `stack` is touched. -/
def resetS (s : Chip8) : Chip8 :=
  { s with SP := 0, PC := 0x200, V := fun _ => 0, I := 0,
           delayTimer := 0, soundTimer := 0, keys := 0, waitingKey := 0,
           halt := false, display := fun _ => false, screenUpdated := true }

/-- Outcome of the file-system interaction of `Chip8::LoadProgram`:
the file may be missing (`stat` fails), present but unopenable
(`ifstream::is_open` is false), or readable with the given byte contents. -/
inductive LoadFile where
  | missing : LoadFile
  | unreadable (contents : List Nat) : LoadFile
  | readable (contents : List Nat) : LoadFile

/-- Sequential byte store, modelling `ifstream::read` into
`&memory[PROGRAM_SPACE]`. -/
def writeBytes (m : Nat → Nat) (addr : Nat) : List Nat → (Nat → Nat)
  | [] => m
  | b :: rest => writeBytes (upd m addr (b % 256)) (addr + 1) rest

/-- `Chip8::LoadProgram` (`src/chip8.cpp` lines 284-314): reject when `stat`
fails, when the size is not in `(0, 3584]`, or when the file cannot be
opened — all before touching any VM state; otherwise read the bytes into
`memory[0x200..]` and call `Reset` (which clears registers, timers, keys and
display but not `memory`). -/
def loadProgram (f : LoadFile) (s : Chip8) : Bool × Chip8 :=
  match f with
  | .missing => (false, s)
  | .unreadable _ => (false, s)
  | .readable c =>
    if c.length = 0 ∨ c.length > 3584 then (false, s)
    else (true, resetS { s with memory := writeBytes s.memory 0x200 c })

/-- The frame-boundary block of `Chip8::Run` (`src/chip8.cpp` lines 422-431):
`frames = int(elapsedSeconds * FPS) - framesFinished`; when positive, the
timers each drop by `std::min(frames, int(timer))`.  (`DrawScreen` and the
`framesFinished` bookkeeping have no effect on the timer pair.) -/
def frameTick (frames : Int) (s : Chip8) : Chip8 :=
  if 0 < frames then
    { s with
        delayTimer := (((s.delayTimer % 256 : Nat) : Int)
          - min frames ((s.delayTimer % 256 : Nat) : Int)).toNat,
        soundTimer := (((s.soundTimer % 256 : Nat) : Int)
          - min frames ((s.soundTimer % 256 : Nat) : Int)).toNat }
  else s

/-- The instruction batch of one scheduling cycle of `Chip8::Run`
(`src/chip8.cpp` line 388): execute up to `n` instructions, stopping early
while the key-wait flag (`waitingKey & 0x10`) is set. -/
def runBatch : Nat → Chip8 → Chip8
  | 0, s => s
  | n + 1, s =>
    if s.waitingKey &&& 0x10 ≠ 0 then s else runBatch n (step s)

/-- The key-event handling of `Chip8::Run` (`src/chip8.cpp` lines 400-417)
for a mapped logical key `k` (0x0-0xF): update the pressed-key bitmask, and
on a key-down while the key-wait flag is set, write the key nibble into the
target register and clear the wait state. -/
def handleKeyEvent (down : Bool) (k : Nat) (s : Chip8) : Chip8 :=
  let flag := 1 <<< (k &&& 0xF)
  let s2 :=
    if down then { s with keys := (s.keys % 65536) ||| flag }
    else { s with keys := (s.keys % 65536) &&& (0xFFFF ^^^ flag) }
  if down ∧ s2.waitingKey &&& 0x10 ≠ 0 then
    { s2 with V := upd s2.V (s2.waitingKey &&& 0xF) (k &&& 0xF), waitingKey := 0 }
  else s2

/-! ### Decode arithmetic -/

theorem and15 (n : Nat) : n &&& 0xF = n % 16 := by
  have h := Nat.and_pow_two_sub_one_eq_mod n 4
  norm_num at h
  exact h

theorem and255 (n : Nat) : n &&& 0xFF = n % 256 := by
  have h := Nat.and_pow_two_sub_one_eq_mod n 8
  norm_num at h
  exact h

theorem and4095 (n : Nat) : n &&& 0xFFF = n % 4096 := by
  have h := Nat.and_pow_two_sub_one_eq_mod n 12
  norm_num at h
  exact h

theorem shr12and (op : Nat) : op >>> 12 &&& 0xF = op / 4096 % 16 := by
  rw [Nat.shiftRight_eq_div_pow, and15]

theorem shr8and (op : Nat) : op >>> 8 &&& 0xF = op / 256 % 16 := by
  rw [Nat.shiftRight_eq_div_pow, and15]

theorem shr4and (op : Nat) : op >>> 4 &&& 0xF = op / 16 % 16 := by
  rw [Nat.shiftRight_eq_div_pow, and15]

theorem opW_eq (op : Nat) : opW op = op / 4096 % 16 := by
  unfold opW; rw [shr12and]

theorem opX_eq (op : Nat) : opX op = op / 256 % 16 := by
  unfold opX; rw [shr8and]

theorem opY_eq (op : Nat) : opY op = op / 16 % 16 := by
  unfold opY; rw [shr4and]

theorem opZ_eq (op : Nat) : opZ op = op % 16 := by
  unfold opZ; rw [and15]

theorem opKK_eq (op : Nat) : opKK op = op % 256 := by
  unfold opKK; rw [and255]

theorem opNNN_eq (op : Nat) : opNNN op = op % 4096 := by
  unfold opNNN; rw [and4095]

/-! ### Basic facts about `step` -/

theorem step_halted (s : Chip8) (h : s.halt = true) : step s = s := by
  simp [step, h]

theorem step_invalidPC (s : Chip8) (h : s.halt = false)
    (hpc : ¬(0x200 ≤ s.PC ∧ s.PC < 0x1000)) : step s = haltS s := by
  simp [step, h, hpc]

theorem step_fetch (s : Chip8) (h : s.halt = false)
    (hpc : 0x200 ≤ s.PC ∧ s.PC < 0x1000) :
    step s = exec { s with PC := (s.PC + 2) % 65536 } (fetchOp s) := by
  simp [step, h, hpc.1, hpc.2]

/-- All-zero machine state, used to build the concrete states of the
witnesses and counterexamples. -/
def zeroS : Chip8 :=
  { memory := fun _ => 0, V := fun _ => 0, I := 0, PC := 0x200,
    stack := fun _ => 0, SP := 0, waitingKey := 0, delayTimer := 0,
    soundTimer := 0, display := fun _ => false, keys := 0,
    screenUpdated := false, halt := false, rand := fun _ => 0, randIdx := 0 }

/-! ### C7: timer decrement -/

/-- C7 (confirmed): on every scheduling cycle with elapsedFrames > 0, each of
the delay and sound timers is decremented by exactly
min(elapsedFrames, currentValue), so it ends at
max(0, currentValue - elapsedFrames) and never becomes negative. -/
theorem c7_timer_decrement (frames : Int) (s : Chip8) (h : 0 < frames) :
    (((s.delayTimer % 256 : Nat) : Int) - ((frameTick frames s).delayTimer : Int)
        = min frames ((s.delayTimer % 256 : Nat) : Int)
      ∧ ((frameTick frames s).delayTimer : Int)
        = max 0 (((s.delayTimer % 256 : Nat) : Int) - frames)
      ∧ 0 ≤ ((frameTick frames s).delayTimer : Int))
    ∧ (((s.soundTimer % 256 : Nat) : Int) - ((frameTick frames s).soundTimer : Int)
        = min frames ((s.soundTimer % 256 : Nat) : Int)
      ∧ ((frameTick frames s).soundTimer : Int)
        = max 0 (((s.soundTimer % 256 : Nat) : Int) - frames)
      ∧ 0 ≤ ((frameTick frames s).soundTimer : Int)) := by
  simp only [frameTick, if_pos h]
  refine ⟨⟨?_, ?_, ?_⟩, ?_, ?_, ?_⟩ <;> omega

/-- Concrete state for the C7 witness: delay timer 2, sound timer 200. -/
def c7S : Chip8 := { zeroS with delayTimer := 2, soundTimer := 200 }

/-- Witness for `c7_timer_decrement` at frames = 3. -/
theorem c7_witness :
    (0 : Int) < 3
    ∧ ((frameTick 3 c7S).delayTimer : Int)
        = max 0 (((c7S.delayTimer % 256 : Nat) : Int) - 3)
    ∧ ((c7S.soundTimer % 256 : Nat) : Int) - ((frameTick 3 c7S).soundTimer : Int)
        = min 3 ((c7S.soundTimer % 256 : Nat) : Int) :=
  ⟨by norm_num,
   (c7_timer_decrement 3 c7S (by norm_num)).1.2.1,
   (c7_timer_decrement 3 c7S (by norm_num)).2.1⟩

/-! ### C10: 8xy4 add with carry -/

/-- Dispatch of an `8xy4` opcode word through the `ExecuteInstruction` chain. -/
theorem exec_8xy4 (s : Chip8) (x y : Nat) (hx : x < 16) (hy : y < 16) :
    exec s (0x8004 + 256 * x + 16 * y) =
      { s with V := upd (upd s.V 0xF (((s.V x % 256 + s.V y % 256) % 65536) >>> 8))
                     x (((s.V x % 256 + s.V y % 256) % 65536) &&& 0xFF) } := by
  have hw : opW (0x8004 + 256 * x + 16 * y) = 8 := by rw [opW_eq]; omega
  have hxv : opX (0x8004 + 256 * x + 16 * y) = x := by rw [opX_eq]; omega
  have hyv : opY (0x8004 + 256 * x + 16 * y) = y := by rw [opY_eq]; omega
  have hz : opZ (0x8004 + 256 * x + 16 * y) = 4 := by rw [opZ_eq]; omega
  have h1 : ¬(0x8004 + 256 * x + 16 * y = 0x00E0) := by omega
  have h2 : ¬(0x8004 + 256 * x + 16 * y = 0x00EE) := by omega
  simp only [exec, hw, hxv, hyv, hz, h1, h2]
  norm_num [execADD]

/-- C10 (corrected): for register indices x ≠ 0xF, `8xy4` computes the 9-bit
sum of Vx and Vy, sets VF to the carry bit and Vx to the sum modulo 256.
When x = 0xF the second write `V[x] = sum & 0xFF` overwrites the carry that
`V[0xF] = sum >> 8` just stored, so VF ends as the sum modulo 256, not the
carry (see the counterexample). -/
theorem c10_add_carry (s : Chip8) (x y : Nat) (hx : x < 16) (hy : y < 16)
    (hxF : x ≠ 0xF) (hh : s.halt = false)
    (hpc : 0x200 ≤ s.PC ∧ s.PC < 0x1000)
    (hhi : s.memory s.PC % 256 = 0x80 + x)
    (hlo : s.memory (s.PC + 1) % 256 = 16 * y + 4) :
    (step s).V x = (s.V x % 256 + s.V y % 256) % 256
    ∧ (step s).V 0xF = (if 255 < s.V x % 256 + s.V y % 256 then 1 else 0) := by
  have hop : fetchOp s = 0x8004 + 256 * x + 16 * y := by
    unfold fetchOp
    rw [hhi, hlo]
    ring
  rw [step_fetch s hh hpc, hop, exec_8xy4 _ x y hx hy]
  have ha : s.V x % 256 < 256 := Nat.mod_lt _ (by norm_num)
  have hb : s.V y % 256 < 256 := Nat.mod_lt _ (by norm_num)
  constructor
  · simp [upd, and255]
    omega
  · have hne : (0xF : Nat) ≠ x := fun hc => hxF hc.symm
    simp [upd, hne, Nat.shiftRight_eq_div_pow]
    split_ifs <;> omega

/-- Concrete state for the C10 counterexample: opcode `8F04` (x = 0xF,
y = 0x0) with VF = 0xFF and V0 = 0x01, so the 9-bit sum is 0x100. -/
def c10S : Chip8 :=
  { zeroS with
      memory := fun a => if a = 0x200 then 0x8F else if a = 0x201 then 0x04 else 0,
      V := fun i => if i = 0xF then 0xFF else if i = 0 then 0x01 else 0 }

/-- Counterexample to C10 as stated: with x = 0xF the sum 0x100 carries
(so the claim demands VF = 1), but after `8F04` the code leaves
VF = sum & 0xFF = 0. -/
theorem c10_counterexample :
    255 < c10S.V 0xF % 256 + c10S.V 0x0 % 256
    ∧ ¬((step c10S).V 0xF = 1) := by decide

/-- Witness for `c10_add_carry`, at the spec's own example
`V0 = 0xFF, V1 = 0x01, ADD V0,V1`: V0 becomes 0x00 and VF becomes 1. -/
def c10W : Chip8 :=
  { zeroS with
      memory := fun a => if a = 0x200 then 0x80 else if a = 0x201 then 0x14 else 0,
      V := fun i => if i = 0 then 0xFF else if i = 1 then 0x01 else 0 }

theorem c10_witness :
    (step c10W).V 0 = (c10W.V 0 % 256 + c10W.V 1 % 256) % 256
    ∧ (step c10W).V 0xF = (if 255 < c10W.V 0 % 256 + c10W.V 1 % 256 then 1 else 0) :=
  c10_add_carry c10W 0 1 (by norm_num) (by norm_num) (by norm_num) (by decide)
    (by decide) (by decide) (by decide)

/-! ### C6: 8xy6 / 8xyE shifts -/

/-- Dispatch of an `8xy6` opcode word: VF is written first, then Vx is set
from a fresh read of Vy. -/
theorem exec_8xy6 (s : Chip8) (x y : Nat) (hx : x < 16) (hy : y < 16) :
    exec s (0x8006 + 256 * x + 16 * y) =
      { s with V := upd (upd s.V 0xF (s.V y % 256 &&& 0x1)) x
                     (((upd s.V 0xF (s.V y % 256 &&& 0x1)) y % 256) >>> 1) } := by
  have hw : opW (0x8006 + 256 * x + 16 * y) = 8 := by rw [opW_eq]; omega
  have hxv : opX (0x8006 + 256 * x + 16 * y) = x := by rw [opX_eq]; omega
  have hyv : opY (0x8006 + 256 * x + 16 * y) = y := by rw [opY_eq]; omega
  have hz : opZ (0x8006 + 256 * x + 16 * y) = 6 := by rw [opZ_eq]; omega
  have h1 : ¬(0x8006 + 256 * x + 16 * y = 0x00E0) := by omega
  have h2 : ¬(0x8006 + 256 * x + 16 * y = 0x00EE) := by omega
  simp only [exec, hw, hxv, hyv, hz, h1, h2]
  norm_num [execSHR]

/-- Dispatch of an `8xyE` opcode word: VF is written first, then Vx is set
from a fresh read of Vy. -/
theorem exec_8xyE (s : Chip8) (x y : Nat) (hx : x < 16) (hy : y < 16) :
    exec s (0x800E + 256 * x + 16 * y) =
      { s with V := upd (upd s.V 0xF ((s.V y % 256) >>> 7)) x
                     ((((upd s.V 0xF ((s.V y % 256) >>> 7)) y % 256) <<< 1) % 256) } := by
  have hw : opW (0x800E + 256 * x + 16 * y) = 8 := by rw [opW_eq]; omega
  have hxv : opX (0x800E + 256 * x + 16 * y) = x := by rw [opX_eq]; omega
  have hyv : opY (0x800E + 256 * x + 16 * y) = y := by rw [opY_eq]; omega
  have hz : opZ (0x800E + 256 * x + 16 * y) = 0xE := by rw [opZ_eq]; omega
  have h1 : ¬(0x800E + 256 * x + 16 * y = 0x00E0) := by omega
  have h2 : ¬(0x800E + 256 * x + 16 * y = 0x00EE) := by omega
  simp only [exec, hw, hxv, hyv, hz, h1, h2]
  norm_num [execSHL]

/-- C6 (corrected): for register indices with x ≠ 0xF and y ≠ 0xF, `8xy6`
sets Vx = Vy >> 1 and VF = Vy & 1, and `8xyE` sets Vx = (Vy << 1) & 0xFF and
VF = bit 7 of Vy — the shift source is Vy.  When x = 0xF the Vx write
clobbers the just-written flag; when y = 0xF the shift source is read after
the flag write, so it is no longer the old Vy (see the counterexample). -/
theorem c6_shift_source (s : Chip8) (x y : Nat) (hx : x < 16) (hy : y < 16)
    (hxF : x ≠ 0xF) (hyF : y ≠ 0xF) (hh : s.halt = false)
    (hpc : 0x200 ≤ s.PC ∧ s.PC < 0x1000)
    (hhi : s.memory s.PC % 256 = 0x80 + x) :
    (s.memory (s.PC + 1) % 256 = 16 * y + 6 →
      (step s).V x = (s.V y % 256) >>> 1
      ∧ (step s).V 0xF = s.V y % 256 &&& 0x1)
    ∧ (s.memory (s.PC + 1) % 256 = 16 * y + 0xE →
      (step s).V x = ((s.V y % 256) <<< 1) % 256
      ∧ (step s).V 0xF = (s.V y % 256) >>> 7) := by
  have hne : (0xF : Nat) ≠ x := fun hc => hxF hc.symm
  have hyne : y ≠ (0xF : Nat) := hyF
  constructor
  · intro hlo
    have hop : fetchOp s = 0x8006 + 256 * x + 16 * y := by
      unfold fetchOp
      rw [hhi, hlo]
      ring
    rw [step_fetch s hh hpc, hop, exec_8xy6 _ x y hx hy]
    constructor
    · simp [upd, hyne, Nat.shiftRight_eq_div_pow]
      try omega
    · simp [upd, hne]
  · intro hlo
    have hop : fetchOp s = 0x800E + 256 * x + 16 * y := by
      unfold fetchOp
      rw [hhi, hlo]
      ring
    rw [step_fetch s hh hpc, hop, exec_8xyE _ x y hx hy]
    constructor
    · simp [upd, hyne, Nat.shiftLeft_eq]
      try omega
    · simp [upd, hne]

/-- Concrete state for the C6 counterexample: opcode `80F6` (x = 0, y = 0xF)
with VF = 2, so the claimed result would be V0 = VF >> 1 = 1. -/
def c6S : Chip8 :=
  { zeroS with
      memory := fun a => if a = 0x200 then 0x80 else if a = 0x201 then 0xF6 else 0,
      V := fun i => if i = 0xF then 2 else 0 }

/-- Counterexample to C6 as stated: with y = 0xF, `80F6` should (per the
claim) set V0 = VF >> 1 = 1, but the code first overwrites VF with
VF & 1 = 0 and then reads the shift source from the updated VF, leaving
V0 = 0. -/
theorem c6_counterexample :
    (c6S.V 0xF % 256) >>> 1 = 1 ∧ ¬((step c6S).V 0 = (c6S.V 0xF % 256) >>> 1) := by
  decide

/-- Concrete state for the C6 witness: opcode `8126` with V2 = 5. -/
def c6W : Chip8 :=
  { zeroS with
      memory := fun a => if a = 0x200 then 0x81 else if a = 0x201 then 0x26 else 0,
      V := fun i => if i = 2 then 5 else 0 }

/-- Concrete state for the C6 witness, `8xyE` half: opcode `812E` with V2 = 0xC1. -/
def c6W2 : Chip8 :=
  { zeroS with
      memory := fun a => if a = 0x200 then 0x81 else if a = 0x201 then 0x2E else 0,
      V := fun i => if i = 2 then 0xC1 else 0 }

theorem c6_witness :
    ((step c6W).V 1 = (c6W.V 2 % 256) >>> 1 ∧ (step c6W).V 0xF = c6W.V 2 % 256 &&& 0x1)
    ∧ ((step c6W2).V 1 = ((c6W2.V 2 % 256) <<< 1) % 256
       ∧ (step c6W2).V 0xF = (c6W2.V 2 % 256) >>> 7) :=
  ⟨(c6_shift_source c6W 1 2 (by norm_num) (by norm_num) (by norm_num) (by norm_num)
      (by decide) (by decide) (by decide)).1 (by decide),
   (c6_shift_source c6W2 1 2 (by norm_num) (by norm_num) (by norm_num) (by norm_num)
      (by decide) (by decide) (by decide)).2 (by decide)⟩

/-! ### C2: stack pointer range -/

/-- The two fatal stack conditions of the dispatch: a `00EE` return with
SP = 0 (`SANITY_CHECK(SP > 0)` fails) or a `2nnn` call with SP = 15
(`SANITY_CHECK(SP < STACK_SIZE-1)` fails). -/
def stackFatal (s : Chip8) : Bool :=
  (fetchOp s == 0x00EE && s.SP == 0)
  || (fetchOp s / 4096 % 16 == 2 && s.SP == 15)

/-- Projection of a state-valued conditional. -/
theorem SP_ite (c : Prop) [Decidable c] (a b : Chip8) :
    (if c then a else b).SP = if c then a.SP else b.SP := by
  split_ifs <;> rfl

set_option maxHeartbeats 1000000 in
/-- The stack pointer after the dispatch chain: only `00EE` and `2nnn`
touch SP. -/
theorem exec_SP_eq (s : Chip8) (op : Nat) :
    (exec s op).SP =
      if op = 0x00EE then (s.SP + 255) % 256
      else if opW op = 0x2 then (s.SP + 1) % 256
      else s.SP := by
  simp only [exec, SP_ite, execCLS, execRET, execJP, execCALL, execSE, execSNE,
    execSEr, execLD, execADDb, execMOV, execOR, execAND, execXOR, execADD,
    execSUB, execSHR, execSUBN, execSHL, execSNEr, execLDI, execJPV0, execRND,
    execDRW, execSKP, execSKNP, execLDDT, execWAIT, execSTDT, execSTST,
    execADDI, execFONT, execBCD, execSTM, execLDM, haltS, ite_self]
  rw [opW_eq]
  split_ifs <;> omega

/-- SP-preservation across the whole dispatch chain, excluding the two fatal
stack conditions. -/
theorem exec_SP (s : Chip8) (op : Nat) (h : s.SP ≤ 15)
    (h1 : ¬(op = 0x00EE ∧ s.SP = 0))
    (h2 : ¬(op / 4096 % 16 = 2 ∧ s.SP = 15)) :
    (exec s op).SP ≤ 15 := by
  rw [exec_SP_eq]
  rw [opW_eq]
  split_ifs <;> omega

/-- C2 (corrected): SP stays in 0..15 across every instruction execution
except the two fatal stack conditions: a `00EE` with SP = 0 wraps SP to 255
and a `2nnn` with SP = 15 pushes SP to 16 (the engine halting either way,
see C4). -/
theorem c2_sp_range (s : Chip8) (h : s.SP ≤ 15) (hf : stackFatal s = false) :
    (step s).SP ≤ 15 := by
  have hf' : (fetchOp s = 0x00EE → ¬s.SP = 0)
      ∧ (fetchOp s / 4096 % 16 = 2 → ¬s.SP = 15) := by
    simpa [stackFatal] using hf
  rcases hb : s.halt with _ | _
  · by_cases hpc : 0x200 ≤ s.PC ∧ s.PC < 0x1000
    · rw [step_fetch s hb hpc]
      apply exec_SP
      · exact h
      · intro hc
        exact hf'.1 hc.1 hc.2
      · intro hc
        exact hf'.2 hc.1 hc.2
    · rw [step_invalidPC s hb hpc]
      exact h
  · rw [step_halted s hb]
    exact h

/-- Concrete state for the C2 counterexample: `00EE` fetched with SP = 0. -/
def c2S : Chip8 :=
  { zeroS with
      memory := fun a => if a = 0x200 then 0x00 else if a = 0x201 then 0xEE else 0 }

/-- Counterexample to C2 as stated: executing `00EE` with SP = 0 leaves the
stack pointer at 255 (the uint8 wrap of SP--), outside 0..15. -/
theorem c2_counterexample : c2S.SP ≤ 15 ∧ ¬((step c2S).SP ≤ 15) := by decide

/-- Witness for `c2_sp_range` at the all-zero state (opcode 0x0000, a
legacy-SYS no-op). -/
theorem c2_witness : zeroS.SP ≤ 15 ∧ stackFatal zeroS = false ∧ (step zeroS).SP ≤ 15 :=
  ⟨by decide, by decide, c2_sp_range zeroS (by decide) (by decide)⟩

/-! ### C4: fatal conditions halt but still mutate -/

/-- Dispatch of the `00EE` opcode word. -/
theorem exec_00EE (s : Chip8) : exec s 0x00EE = execRET s := by
  norm_num [exec]

/-- Dispatch of a `2nnn` opcode word. -/
theorem exec_2nnn (s : Chip8) (n : Nat) (hn : n < 4096) :
    exec s (0x2000 + n) = execCALL s n := by
  have hw : opW (0x2000 + n) = 2 := by rw [opW_eq]; omega
  have hnnn : opNNN (0x2000 + n) = n := by rw [opNNN_eq]; omega
  have h1 : ¬(0x2000 + n = 0x00E0) := by omega
  have h2 : ¬(0x2000 + n = 0x00EE) := by omega
  simp only [exec, hw, hnnn, h1, h2]
  norm_num

/-- Dispatch of an `Fx33` opcode word. -/
theorem exec_Fx33 (s : Chip8) (x : Nat) (hx : x < 16) :
    exec s (0xF033 + 256 * x) = execBCD s x := by
  have hw : opW (0xF033 + 256 * x) = 0xF := by rw [opW_eq]; omega
  have hxv : opX (0xF033 + 256 * x) = x := by rw [opX_eq]; omega
  have hz : opZ (0xF033 + 256 * x) = 3 := by rw [opZ_eq]; omega
  have hkk : opKK (0xF033 + 256 * x) = 0x33 := by rw [opKK_eq]; omega
  have h1 : ¬(0xF033 + 256 * x = 0x00E0) := by omega
  have h2 : ¬(0xF033 + 256 * x = 0x00EE) := by omega
  simp only [exec, hw, hxv, hz, hkk, h1, h2]
  norm_num

/-- Dispatch of an `Fx55` opcode word. -/
theorem exec_Fx55 (s : Chip8) (x : Nat) (hx : x < 16) :
    exec s (0xF055 + 256 * x) = execSTM s x := by
  have hw : opW (0xF055 + 256 * x) = 0xF := by rw [opW_eq]; omega
  have hxv : opX (0xF055 + 256 * x) = x := by rw [opX_eq]; omega
  have hz : opZ (0xF055 + 256 * x) = 5 := by rw [opZ_eq]; omega
  have hkk : opKK (0xF055 + 256 * x) = 0x55 := by rw [opKK_eq]; omega
  have h1 : ¬(0xF055 + 256 * x = 0x00E0) := by omega
  have h2 : ¬(0xF055 + 256 * x = 0x00EE) := by omega
  simp only [exec, hw, hxv, hz, hkk, h1, h2]
  norm_num

/-- Dispatch of an `Fx65` opcode word. -/
theorem exec_Fx65 (s : Chip8) (x : Nat) (hx : x < 16) :
    exec s (0xF065 + 256 * x) = execLDM s x := by
  have hw : opW (0xF065 + 256 * x) = 0xF := by rw [opW_eq]; omega
  have hxv : opX (0xF065 + 256 * x) = x := by rw [opX_eq]; omega
  have hz : opZ (0xF065 + 256 * x) = 5 := by rw [opZ_eq]; omega
  have hkk : opKK (0xF065 + 256 * x) = 0x65 := by rw [opKK_eq]; omega
  have h1 : ¬(0xF065 + 256 * x = 0x00E0) := by omega
  have h2 : ¬(0xF065 + 256 * x = 0x00EE) := by omega
  simp only [exec, hw, hxv, hz, hkk, h1, h2]
  norm_num

/-- Dispatch of a `Dxyn` opcode word. -/
theorem exec_Dxyz (s : Chip8) (x y z : Nat) (hx : x < 16) (hy : y < 16)
    (hz' : z < 16) :
    exec s (0xD000 + 256 * x + 16 * y + z) = execDRW s x y z := by
  have hw : opW (0xD000 + 256 * x + 16 * y + z) = 0xD := by rw [opW_eq]; omega
  have hxv : opX (0xD000 + 256 * x + 16 * y + z) = x := by rw [opX_eq]; omega
  have hyv : opY (0xD000 + 256 * x + 16 * y + z) = y := by rw [opY_eq]; omega
  have hzv : opZ (0xD000 + 256 * x + 16 * y + z) = z := by rw [opZ_eq]; omega
  have h1 : ¬(0xD000 + 256 * x + 16 * y + z = 0x00E0) := by omega
  have h2 : ¬(0xD000 + 256 * x + 16 * y + z = 0x00EE) := by omega
  simp only [exec, hw, hxv, hyv, hzv, h1, h2]
  norm_num

/-- C4 (confirmed): when a fatal precondition is detected inside an
instruction, the engine sets halt but still performs the remaining mutations
of that instruction; only subsequent instructions are refused.  In
particular `00EE` with SP = 0 halts yet assigns PC = stack[0] and wraps SP
to 255; `2nnn` with SP = 15 halts yet increments SP to 16 and writes the
return address into stack slot 16, one past the 16-entry stack; `Fx33`,
`Fx55`, `Fx65` and `Dxyn` with I out of range halt yet still perform their
memory/register/display writes. -/
theorem c4_halt_still_mutates :
    (∀ s : Chip8, s.halt = true → step s = s)
    ∧ (∀ s : Chip8, s.halt = false → 0x200 ≤ s.PC ∧ s.PC < 0x1000 →
        fetchOp s = 0x00EE → s.SP = 0 →
        (step s).halt = true ∧ (step s).PC = s.stack 0 % 65536 ∧ (step s).SP = 255)
    ∧ (∀ (s : Chip8) (n : Nat), s.halt = false → 0x200 ≤ s.PC ∧ s.PC < 0x1000 →
        n < 4096 → fetchOp s = 0x2000 + n → s.SP = 15 →
        (step s).halt = true ∧ (step s).SP = 16
        ∧ (step s).stack 16 = s.PC + 2 ∧ (step s).PC = n)
    ∧ (∀ (s : Chip8) (x : Nat), x < 16 → s.halt = false →
        0x200 ≤ s.PC ∧ s.PC < 0x1000 →
        fetchOp s = 0xF033 + 256 * x → ¬(s.I + 2 < 4096) →
        (step s).halt = true
        ∧ (step s).memory s.I = s.V x % 256 / 100 % 10
        ∧ (step s).memory (s.I + 1) = s.V x % 256 / 10 % 10
        ∧ (step s).memory (s.I + 2) = s.V x % 256 % 10)
    ∧ (∀ s : Chip8, s.halt = false → 0x200 ≤ s.PC ∧ s.PC < 0x1000 →
        fetchOp s = 0xF055 → ¬(s.I < 4096) →
        (step s).halt = true ∧ (step s).memory s.I = s.V 0 % 256
        ∧ (step s).I = (s.I + 1) % 65536)
    ∧ (∀ s : Chip8, s.halt = false → 0x200 ≤ s.PC ∧ s.PC < 0x1000 →
        fetchOp s = 0xF065 → ¬(s.I < 4096) →
        (step s).halt = true ∧ (step s).V 0 = s.memory s.I % 256
        ∧ (step s).I = (s.I + 1) % 65536)
    ∧ (∀ (s : Chip8) (x y z : Nat), x < 16 → y < 16 → z < 16 →
        s.halt = false → 0x200 ≤ s.PC ∧ s.PC < 0x1000 →
        fetchOp s = 0xD000 + 256 * x + 16 * y + z → ¬(s.I + z < 4096) →
        (step s).halt = true ∧ (step s).screenUpdated = true) := by
  refine ⟨?_, ?_, ?_, ?_, ?_, ?_, ?_⟩
  · intro s hh
    exact step_halted s hh
  · intro s hh hpc hop hsp
    rw [step_fetch s hh hpc, hop, exec_00EE]
    simp [execRET, hsp]
  · intro s n hh hpc hn hop hsp
    rw [step_fetch s hh hpc, hop, exec_2nnn _ n hn]
    have hpcv : (s.PC + 2) % 65536 = s.PC + 2 := by omega
    simp [execCALL, hsp, upd, hpcv]
  · intro s x hx hh hpc hop hI
    rw [step_fetch s hh hpc, hop, exec_Fx33 _ x hx]
    have e1 : ¬(s.I = s.I + 1) := by omega
    have e2 : ¬(s.I = s.I + 2) := by omega
    have e3 : ¬(s.I + 1 = s.I + 2) := by omega
    simp [execBCD, upd, e1, e2, e3, hI]
  · intro s hh hpc hop hI
    have hop' : fetchOp s = 0xF055 + 256 * 0 := by simpa using hop
    rw [step_fetch s hh hpc, hop', exec_Fx55 _ 0 (by norm_num)]
    simp [execSTM, upd, List.range_succ, hI]
  · intro s hh hpc hop hI
    have hop' : fetchOp s = 0xF065 + 256 * 0 := by simpa using hop
    rw [step_fetch s hh hpc, hop', exec_Fx65 _ 0 (by norm_num)]
    simp [execLDM, upd, List.range_succ, hI]
  · intro s x y z hx hy hz hh hpc hop hI
    rw [step_fetch s hh hpc, hop, exec_Dxyz _ x y z hx hy hz]
    simp [execDRW, hI]

/-- Concrete state for the C4 witness: `00EE` fetched with SP = 0. -/
def c4W1 : Chip8 :=
  { zeroS with
      memory := fun a => if a = 0x200 then 0x00 else if a = 0x201 then 0xEE else 0 }

/-- Concrete state for the C4 witness: `2222` (CALL 0x222) fetched with SP = 15. -/
def c4W2 : Chip8 :=
  { zeroS with
      memory := fun a => if a = 0x200 then 0x22 else if a = 0x201 then 0x22 else 0,
      SP := 15 }

theorem c4_witness :
    (step c4W1).halt = true ∧ (step c4W1).SP = 255
    ∧ (step c4W2).SP = 16 ∧ (step c4W2).stack 16 = c4W2.PC + 2 :=
  ⟨(c4_halt_still_mutates.2.1 c4W1 (by decide) (by decide) (by decide) (by decide)).1,
   (c4_halt_still_mutates.2.1 c4W1 (by decide) (by decide) (by decide) (by decide)).2.2,
   (c4_halt_still_mutates.2.2.1 c4W2 0x222 (by decide) (by decide) (by decide)
      (by decide) (by decide)).2.1,
   (c4_halt_still_mutates.2.2.1 c4W2 0x222 (by decide) (by decide) (by decide)
      (by decide) (by decide)).2.2.1⟩

/-! ### C3: call-stack capacity -/

/-- Program of 16 chained CALLs: at each even address a in [0x200, 0x220)
the instruction is `CALL a+2`. -/
def nestS : Chip8 :=
  { zeroS with
      memory := fun a =>
        if 0x200 ≤ a ∧ a < 0x220 then
          (if a % 2 = 0 then 0x22 else (a + 1) % 256)
        else 0 }

/-- Program of 16 CALL/RET pairs: each of the 16 instructions in
[0x200, 0x220) is `CALL 0x300`, and 0x300 holds `RET`. -/
def altS : Chip8 :=
  { zeroS with
      memory := fun a =>
        if 0x200 ≤ a ∧ a < 0x220 then (if a % 2 = 0 then 0x23 else 0x00)
        else if a = 0x300 then 0x00
        else if a = 0x301 then 0xEE
        else 0 }

/-- State about to execute `RET` with SP = 0. -/
def retS : Chip8 :=
  { zeroS with
      memory := fun a => if a = 0x200 then 0x00 else if a = 0x201 then 0xEE else 0 }

/-- C3 (corrected): from the reset state, CALL immediately followed by RET
succeeds sixteen times in a row (32 instructions, no halt, SP back to 0);
but nesting CALLs, the sixteenth nested CALL — not the seventeenth — is the
first to trigger the fatal stack-overflow halt (the pre-increment push
`stack[++SP]` never uses slot 0, so only 15 return addresses fit); and RET
executed with SP = 0 triggers the fatal stack-underflow halt. -/
theorem c3_stack_capacity :
    ((stepN 32 altS).halt = false ∧ (stepN 32 altS).SP = 0
      ∧ (stepN 32 altS).PC = 0x220)
    ∧ ((stepN 15 nestS).halt = false ∧ (stepN 15 nestS).SP = 15
      ∧ (stepN 16 nestS).halt = true)
    ∧ (step retS).halt = true := by decide

/-- Counterexample to C3 as stated: the claim says the seventeenth nested
CALL is the first to trigger the fatal stack overflow, but already the
sixteenth nested CALL (executed with SP = 15 after fifteen successful
nested CALLs) halts the engine. -/
theorem c3_counterexample :
    (stepN 15 nestS).halt = false ∧ (stepN 15 nestS).SP = 15
    ∧ (stepN 16 nestS).halt = true := by decide

/-! ### C9 / C5: program loading -/

/-- Addresses below the write window are untouched by `writeBytes`. -/
theorem writeBytes_lo (bs : List Nat) (m : Nat → Nat) (addr j : Nat)
    (h : j < addr) : writeBytes m addr bs j = m j := by
  induction bs generalizing m addr with
  | nil => rfl
  | cons b rest ih =>
    show writeBytes (upd m addr (b % 256)) (addr + 1) rest j = m j
    rw [ih _ (addr + 1) (by omega)]
    simp [upd]
    omega

/-- Addresses at or beyond the end of the write window are untouched by
`writeBytes`. -/
theorem writeBytes_hi (bs : List Nat) (m : Nat → Nat) (addr j : Nat)
    (h : addr + bs.length ≤ j) : writeBytes m addr bs j = m j := by
  induction bs generalizing m addr with
  | nil => rfl
  | cons b rest ih =>
    show writeBytes (upd m addr (b % 256)) (addr + 1) rest j = m j
    rw [ih _ (addr + 1) (by simp at h ⊢; omega)]
    simp at h
    simp [upd]
    omega

/-- Bytes inside the write window equal the corresponding list entries
(reduced mod 256, the uint8 store). -/
theorem writeBytes_get (bs : List Nat) (m : Nat → Nat) (addr i : Nat)
    (h : i < bs.length) :
    writeBytes m addr bs (addr + i) = bs.get ⟨i, h⟩ % 256 := by
  induction bs generalizing m addr i with
  | nil => simp at h
  | cons b rest ih =>
    cases i with
    | zero =>
      show writeBytes (upd m addr (b % 256)) (addr + 1) rest (addr + 0) = b % 256
      rw [writeBytes_lo rest _ (addr + 1) (addr + 0) (by omega)]
      simp [upd]
    | succ i =>
      have h' : i < rest.length := by simpa using h
      show writeBytes (upd m addr (b % 256)) (addr + 1) rest (addr + (i + 1))
        = rest.get ⟨i, h'⟩ % 256
      have harr : addr + (i + 1) = (addr + 1) + i := by omega
      rw [harr]
      exact ih _ (addr + 1) i h'

/-- C9 (corrected): LoadProgram succeeds for every readable file of size
1..3584 bytes and places it verbatim starting at 0x200 (byte i of the file
equals memory[0x200+i]); an empty (0-byte) file, an oversized file, a
missing file, or an unreadable file is rejected with no change to any VM
state. -/
theorem c9_load_accepts (bs : List Nat) (s : Chip8)
    (h1 : 1 ≤ bs.length) (h2 : bs.length ≤ 3584) :
    ((loadProgram (.readable bs) s).1 = true
      ∧ ∀ i (hi : i < bs.length),
          (loadProgram (.readable bs) s).2.memory (0x200 + i) = bs.get ⟨i, hi⟩ % 256)
    ∧ (∀ (s' : Chip8) (cs : List Nat), cs.length > 3584 →
        loadProgram (.readable cs) s' = (false, s'))
    ∧ (∀ s' : Chip8, loadProgram (.readable []) s' = (false, s'))
    ∧ (∀ s' : Chip8, loadProgram .missing s' = (false, s'))
    ∧ (∀ (s' : Chip8) (cs : List Nat), loadProgram (.unreadable cs) s' = (false, s')) := by
  refine ⟨⟨?_, ?_⟩, ?_, ?_, ?_, ?_⟩
  · have hcond : ¬(bs.length = 0 ∨ bs.length > 3584) := by omega
    simp only [loadProgram, if_neg hcond]
  · intro i hi
    have hcond : ¬(bs.length = 0 ∨ bs.length > 3584) := by omega
    simp only [loadProgram, if_neg hcond]
    show (resetS { s with memory := writeBytes s.memory 0x200 bs }).memory (0x200 + i)
      = bs.get ⟨i, hi⟩ % 256
    simpa [resetS] using writeBytes_get bs s.memory 0x200 i hi
  · intro s' cs hlen
    have hcond : cs.length = 0 ∨ cs.length > 3584 := Or.inr hlen
    simp only [loadProgram, if_pos hcond]
  · intro s'
    simp [loadProgram]
  · intro s'
    simp [loadProgram]
  · intro s' cs
    simp [loadProgram]

/-- Counterexample to C9 as stated: the empty file is readable and no larger
than 3584 bytes, yet `LoadProgram` rejects it (`status.st_size <= 0`). -/
theorem c9_counterexample :
    ([] : List Nat).length ≤ 3584
    ∧ (loadProgram (.readable []) zeroS).1 = false := by decide

/-- Two-byte program used by the C9 witness. -/
def c9WL : List Nat := [0xA2, 0xF0]

theorem c9_witness :
    1 ≤ c9WL.length ∧ c9WL.length ≤ 3584
    ∧ (loadProgram (.readable c9WL) zeroS).1 = true
    ∧ (loadProgram (.readable c9WL) zeroS).2.memory 0x200 = 0xA2 :=
  ⟨by decide, by decide,
   (c9_load_accepts c9WL zeroS (by decide) (by decide)).1.1,
   by simpa using (c9_load_accepts c9WL zeroS (by decide) (by decide)).1.2 0 (by decide)⟩

/-- C5 (corrected): a successful load of k bytes places the file contents at
[0x200, 0x200+k), but the rest of the program region is NOT cleared: every
address at or beyond 0x200+k (and every address below 0x200) retains its
previous contents, because `LoadProgram` only reads the file over the front
of the program region and `Reset` never touches memory. -/
theorem c5_load_region (bs : List Nat) (s : Chip8)
    (h1 : 1 ≤ bs.length) (h2 : bs.length ≤ 3584) :
    (loadProgram (.readable bs) s).1 = true
    ∧ (∀ i (hi : i < bs.length),
        (loadProgram (.readable bs) s).2.memory (0x200 + i) = bs.get ⟨i, hi⟩ % 256)
    ∧ (∀ a, 0x200 + bs.length ≤ a →
        (loadProgram (.readable bs) s).2.memory a = s.memory a)
    ∧ (∀ a, a < 0x200 → (loadProgram (.readable bs) s).2.memory a = s.memory a) := by
  have hcond : ¬(bs.length = 0 ∨ bs.length > 3584) := by omega
  refine ⟨?_, ?_, ?_, ?_⟩
  · simp only [loadProgram, if_neg hcond]
  · intro i hi
    simp only [loadProgram, if_neg hcond]
    show (resetS { s with memory := writeBytes s.memory 0x200 bs }).memory (0x200 + i)
      = bs.get ⟨i, hi⟩ % 256
    simpa [resetS] using writeBytes_get bs s.memory 0x200 i hi
  · intro a ha
    simp only [loadProgram, if_neg hcond]
    show (resetS { s with memory := writeBytes s.memory 0x200 bs }).memory a
      = s.memory a
    simpa [resetS] using writeBytes_hi bs s.memory 0x200 a ha
  · intro a ha
    simp only [loadProgram, if_neg hcond]
    show (resetS { s with memory := writeBytes s.memory 0x200 bs }).memory a
      = s.memory a
    simpa [resetS] using writeBytes_lo bs s.memory 0x200 a (by omega)

/-- Concrete prior state for the C5 counterexample: a leftover byte 0xAB at
address 0x300 from a previously loaded program. -/
def c5S : Chip8 :=
  { zeroS with memory := fun a => if a = 0x300 then 0xAB else 0 }

/-- Counterexample to C5 as stated: loading a 1-byte file succeeds, 0x300
lies in the supposedly cleared remainder [0x200+1, 0x1000), yet it still
holds the previous byte 0xAB, not 0. -/
theorem c5_counterexample :
    (loadProgram (.readable [1]) c5S).1 = true
    ∧ 0x200 + ([1] : List Nat).length ≤ 0x300 ∧ (0x300 : Nat) < 0x1000
    ∧ (loadProgram (.readable [1]) c5S).2.memory 0x300 = 0xAB := by decide

/-- Concrete prior state for the C5 witness: a leftover byte 7 at 0x201. -/
def c5W : Chip8 :=
  { zeroS with memory := fun a => if a = 0x201 then 7 else 0 }

theorem c5_witness :
    (loadProgram (.readable [5]) c5W).1 = true
    ∧ (loadProgram (.readable [5]) c5W).2.memory 0x200 = 5
    ∧ (loadProgram (.readable [5]) c5W).2.memory 0x201 = c5W.memory 0x201 :=
  ⟨(c5_load_region [5] c5W (by decide) (by decide)).1,
   by simpa using (c5_load_region [5] c5W (by decide) (by decide)).2.1 0 (by decide),
   (c5_load_region [5] c5W (by decide) (by decide)).2.2.1 0x201 (by decide)⟩

/-! ### C8: key-wait blocks execution -/

/-- Dispatch of an `Fx0A` opcode word. -/
theorem exec_Fx0A (s : Chip8) (x : Nat) (hx : x < 16) :
    exec s (0xF00A + 256 * x) = execWAIT s x := by
  have hw : opW (0xF00A + 256 * x) = 0xF := by rw [opW_eq]; omega
  have hxv : opX (0xF00A + 256 * x) = x := by rw [opX_eq]; omega
  have hz : opZ (0xF00A + 256 * x) = 0xA := by rw [opZ_eq]; omega
  have hkk : opKK (0xF00A + 256 * x) = 0x0A := by rw [opKK_eq]; omega
  have h1 : ¬(0xF00A + 256 * x = 0x00E0) := by omega
  have h2 : ¬(0xF00A + 256 * x = 0x00EE) := by omega
  simp only [exec, hw, hxv, hz, hkk, h1, h2]
  norm_num

/-- C8 (confirmed): while the key-wait flag is set, a scheduling batch
executes zero instructions; `Fx0A` sets the flag with target register x; a
key-press event with the flag set writes the key nibble into the target
register and returns the latch to idle (waitingKey = 0); a key-release
event never changes the wait latch or the registers — it only clears the
key's bit in the pressed mask; and once the flag is clear, a batch executes
instructions again. -/
theorem c8_key_wait :
    (∀ (n : Nat) (s : Chip8), s.waitingKey &&& 0x10 ≠ 0 → runBatch n s = s)
    ∧ (∀ (s : Chip8) (x : Nat), x < 16 → s.halt = false →
        0x200 ≤ s.PC ∧ s.PC < 0x1000 → fetchOp s = 0xF00A + 256 * x →
        (step s).waitingKey = 0x10 ||| x
        ∧ (0x10 ||| x) &&& 0x10 ≠ 0 ∧ (0x10 ||| x) &&& 0xF = x)
    ∧ (∀ (s : Chip8) (k : Nat), s.waitingKey &&& 0x10 ≠ 0 →
        (handleKeyEvent true k s).waitingKey = 0
        ∧ (handleKeyEvent true k s).V (s.waitingKey &&& 0xF) = k &&& 0xF
        ∧ k &&& 0xF ≤ 0xF)
    ∧ (∀ (s : Chip8) (k : Nat),
        (handleKeyEvent false k s).waitingKey = s.waitingKey
        ∧ (handleKeyEvent false k s).V = s.V
        ∧ (handleKeyEvent false k s).keys
            = s.keys % 65536 &&& (0xFFFF ^^^ (1 <<< (k &&& 0xF)))
        ∧ (handleKeyEvent false k s).PC = s.PC
        ∧ (handleKeyEvent false k s).display = s.display)
    ∧ (∀ (n : Nat) (s : Chip8), s.waitingKey &&& 0x10 = 0 →
        runBatch (n + 1) s = runBatch n (step s)) := by
  refine ⟨?_, ?_, ?_, ?_, ?_⟩
  · intro n s h
    cases n with
    | zero => rfl
    | succ n => simp [runBatch, h]
  · intro s x hx hh hpc hop
    rw [step_fetch s hh hpc, hop, exec_Fx0A _ x hx]
    refine ⟨rfl, ?_, ?_⟩ <;> interval_cases x <;> decide
  · intro s k h
    simp [handleKeyEvent, h, upd]
    rw [and15]
    omega
  · intro s k
    simp [handleKeyEvent]
  · intro n s h
    simp [runBatch, h]

/-- Concrete waiting state for the C8 witness: key-wait latch set targeting
register 3 (waitingKey = 0x13). -/
def c8S : Chip8 := { zeroS with waitingKey := 0x13 }

theorem c8_witness :
    runBatch 5 c8S = c8S
    ∧ (handleKeyEvent true 0xA c8S).waitingKey = 0
    ∧ (handleKeyEvent true 0xA c8S).V (c8S.waitingKey &&& 0xF) = 0xA &&& 0xF
    ∧ (handleKeyEvent false 0xA c8S).waitingKey = c8S.waitingKey :=
  ⟨c8_key_wait.1 5 c8S (by decide),
   (c8_key_wait.2.2.1 c8S 0xA (by decide)).1,
   (c8_key_wait.2.2.1 c8S 0xA (by decide)).2.1,
   (c8_key_wait.2.2.2.1 c8S 0xA).1⟩

/-! ### C1: draw coordinate wrapping -/

/-- A cell different from the one a `blitBit` writes is unchanged. -/
theorem blitBit_out (m : Nat → Nat) (i px rs : Nat) (acc : (Nat → Bool) × Nat)
    (b c : Nat) (h : c ≠ rs + (px + b) % 64) :
    (blitBit m i px rs acc b).1 c = acc.1 c := by
  simp [blitBit, upd, h]

/-- The cell a `blitBit` writes receives the XOR of its old value with the
sprite bit. -/
theorem blitBit_at (m : Nat → Nat) (i px rs : Nat) (acc : (Nat → Bool) × Nat)
    (b : Nat) :
    (blitBit m i px rs acc b).1 (rs + (px + b) % 64)
      = xor (acc.1 (rs + (px + b) % 64)) (spriteBit m i b = 1) := by
  simp [blitBit, upd]

/-- A cell not among the 8 targets of a bit-loop prefix is unchanged. -/
theorem blitFold_out (m : Nat → Nat) (i px rs : Nat) (L : List Nat)
    (acc : (Nat → Bool) × Nat) (c : Nat)
    (h : ∀ b ∈ L, c ≠ rs + (px + b) % 64) :
    (L.foldl (blitBit m i px rs) acc).1 c = acc.1 c := by
  induction L generalizing acc with
  | nil => rfl
  | cons b rest ih =>
    rw [List.foldl_cons,
      ih (blitBit m i px rs acc b) (fun b' hb' => h b' (List.mem_cons_of_mem _ hb'))]
    exact blitBit_out m i px rs acc b c (h b (List.mem_cons_self _ _))

/-- Value of a bit-loop prefix of length k at the cell of column c: columns
at indices below k have been XOR-blitted, the rest are untouched. -/
theorem blitFold_at (m : Nat → Nat) (i px rs : Nat) (acc : (Nat → Bool) × Nat)
    (c k : Nat) (hc : c < 64) (hk : k ≤ 64) :
    ((List.range k).foldl (blitBit m i px rs) acc).1 (rs + (px + c) % 64)
      = if c < k then xor (acc.1 (rs + (px + c) % 64)) (spriteBit m i c = 1)
        else acc.1 (rs + (px + c) % 64) := by
  induction k with
  | zero => simp
  | succ k ih =>
    rw [List.range_succ, List.foldl_append, List.foldl_cons, List.foldl_nil]
    by_cases hck : c = k
    · subst hck
      rw [blitBit_at, ih (by omega)]
      simp
    · have hne : rs + (px + c) % 64 ≠ rs + (px + k) % 64 := by
        have hk64 : k < 64 := by omega
        have : (px + c) % 64 ≠ (px + k) % 64 := by omega
        omega
      rw [blitBit_out _ _ _ _ _ _ _ hne, ih (by omega)]
      by_cases hck2 : c < k
      · simp [hck2, (show c < k + 1 by omega)]
      · simp [hck2, (show ¬(c < k + 1) by omega)]

/-- A cell whose column is not one of the row's 8 targets is unchanged by
`blitRow`. -/
theorem blitRow_out (m : Nat → Nat) (i px rs : Nat) (acc : (Nat → Bool) × Nat)
    (c : Nat) (h : ∀ b, b < 8 → c ≠ rs + (px + b) % 64) :
    (blitRow m i px rs acc).1 c = acc.1 c :=
  blitFold_out m i px rs _ acc c (fun b hb => h b (List.mem_range.mp hb))

/-- `blitRow` XOR-blits sprite bit c into the cell of column (px+c) mod 64. -/
theorem blitRow_at (m : Nat → Nat) (i px rs : Nat) (acc : (Nat → Bool) × Nat)
    (c : Nat) (hc : c < 8) :
    (blitRow m i px rs acc).1 (rs + (px + c) % 64)
      = xor (acc.1 (rs + (px + c) % 64)) (spriteBit m i c = 1) := by
  have h := blitFold_at m i px rs acc c 8 (by omega) (by omega)
  rw [if_pos hc] at h
  exact h

/-- A cell whose row is not among the processed sprite rows is unchanged by
the row loop. -/
theorem drawFold_out (m : Nat → Nat) (i px py : Nat) (L : List Nat)
    (acc : (Nat → Bool) × Nat) (q : Nat)
    (h : ∀ hgt ∈ L, ∀ b, b < 8 → q ≠ 64 * ((py + hgt) % 32) + (px + b) % 64) :
    (L.foldl
        (fun acc height => blitRow m (i + height) px (64 * ((py + height) % 32)) acc)
        acc).1 q = acc.1 q := by
  induction L generalizing acc with
  | nil => rfl
  | cons hgt rest ih =>
    rw [List.foldl_cons,
      ih _ (fun h' hh' => h h' (List.mem_cons_of_mem _ hh'))]
    exact blitRow_out m (i + hgt) px _ acc q
      (fun b hb => h hgt (List.mem_cons_self _ _) b hb)

/-- The functional effect of the `Dxyn` draw loop on its target cells: for
every sprite row r < n (n at most 32) and column c < 8, the display cell
`64*((py+r) mod 32) + ((px+c) mod 64)` is XORed with sprite bit c of
`memory[(i+r) & 0xFFF]`. -/
theorem drawSprite_at (m : Nat → Nat) (i px py : Nat) (d : Nat → Bool)
    (n r c : Nat) (hn : n ≤ 32) (hr : r < n) (hc : c < 8) :
    (drawSprite m i px py n d).1 (64 * ((py + r) % 32) + (px + c) % 64)
      = xor (d (64 * ((py + r) % 32) + (px + c) % 64))
            (spriteBit m (i + r) c = 1) := by
  induction n with
  | zero => omega
  | succ n ih =>
    have hstep : drawSprite m i px py (n + 1) d
        = blitRow m (i + n) px (64 * ((py + n) % 32)) (drawSprite m i px py n d) := by
      rw [drawSprite, drawSprite, List.range_succ, List.foldl_append,
        List.foldl_cons, List.foldl_nil]
    by_cases hrn : r = n
    · subst hrn
      rw [hstep, blitRow_at _ _ _ _ _ c hc]
      have hout : (drawSprite m i px py r d).1 (64 * ((py + r) % 32) + (px + c) % 64)
          = d (64 * ((py + r) % 32) + (px + c) % 64) := by
        rw [drawSprite]
        apply drawFold_out
        intro hgt hmem b hb
        have hgt' : hgt < r := List.mem_range.mp hmem
        have hrowne : (py + r) % 32 ≠ (py + hgt) % 32 := by omega
        omega
      rw [hout]
    · have hr' : r < n := by omega
      rw [hstep, blitRow_out]
      · exact ih (by omega) hr'
      · intro b hb
        have hrowne : (py + r) % 32 ≠ (py + n) % 32 := by omega
        omega

/-- C1 (corrected): for every `Dxyn` draw with register indices x, y other
than 0xF, each of the n sprite rows and 8 columns is XOR-blitted into the
framebuffer at ((Vx+col) mod 64, (Vy+row) mod 32): the column wraps modulo
the width 64, but the row wraps modulo the HEIGHT 32 of the 64x32 display,
not modulo 64 as claimed.  The exclusion of 0xF is forced by the statement
order of the source: `V[0xF] = 0x0` runs before `pixelX = V[x];
pixelY = V[y]`, so a draw naming VF as a coordinate register uses 0, not
the old VF. -/
theorem c1_draw_wrap (s : Chip8) (x y n : Nat) (hx : x < 16) (hy : y < 16)
    (hxF : x ≠ 0xF) (hyF : y ≠ 0xF) (hn : n < 16) (hh : s.halt = false)
    (hpc : 0x200 ≤ s.PC ∧ s.PC < 0x1000)
    (hop : fetchOp s = 0xD000 + 256 * x + 16 * y + n) :
    ∀ row col, row < n → col < 8 →
      (step s).display (64 * ((s.V y % 256 + row) % 32) + (s.V x % 256 + col) % 64)
        = xor (s.display (64 * ((s.V y % 256 + row) % 32) + (s.V x % 256 + col) % 64))
              (spriteBit s.memory (s.I + row) col = 1) := by
  intro row col hrow hcol
  rw [step_fetch s hh hpc, hop, exec_Dxyz _ x y n hx hy hn]
  simp only [execDRW]
  have hvx : upd s.V 0xF 0 x = s.V x := by simp [upd, hxF]
  have hvy : upd s.V 0xF 0 y = s.V y := by simp [upd, hyF]
  rw [hvx, hvy]
  exact drawSprite_at s.memory s.I (s.V x % 256) (s.V y % 256) s.display
    n row col (by omega) hrow hcol

/-- Concrete state for the C1 counterexample: `D011` (draw a 1-row sprite at
(V0, V1)) with V0 = 0, V1 = 32, I = 0 and sprite byte 0x80 at address 0. -/
def c1S : Chip8 :=
  { zeroS with
      memory := fun a =>
        if a = 0x200 then 0xD0 else if a = 0x201 then 0x11
        else if a = 0 then 0x80 else 0,
      V := fun i => if i = 1 then 32 else 0 }

/-- Counterexample to C1 as stated: with Vy = 32 the claim places sprite bit
(row 0, col 0) at cell ((0+0) mod 64, (32+0) mod 64) = (0, 32), i.e. cell
index 2048, and demands that cell be XORed with the set sprite bit; but the
code wraps the row modulo 32, leaves cell 2048 unchanged (false), and sets
cell (0, 0) instead. -/
theorem c1_counterexample :
    spriteBit c1S.memory (c1S.I + 0) 0 = 1
    ∧ ¬((step c1S).display (64 * ((c1S.V 1 % 256 + 0) % 64) + (c1S.V 0 % 256 + 0) % 64)
        = xor (c1S.display (64 * ((c1S.V 1 % 256 + 0) % 64) + (c1S.V 0 % 256 + 0) % 64))
              (spriteBit c1S.memory (c1S.I + 0) 0 = 1))
    ∧ (step c1S).display (64 * ((c1S.V 1 % 256 + 0) % 32) + (c1S.V 0 % 256 + 0) % 64)
        = true := by decide

/-- Concrete state for the C1 witness: `D012` (2-row sprite at (V0, V1))
with V0 = 62, V1 = 31 (so both coordinates wrap), I = 0x400 and sprite
bytes 0xFF, 0x01 at 0x400. -/
def c1W : Chip8 :=
  { zeroS with
      memory := fun a =>
        if a = 0x200 then 0xD0 else if a = 0x201 then 0x12
        else if a = 0x400 then 0xFF else if a = 0x401 then 0x01 else 0,
      V := fun i => if i = 0 then 62 else if i = 1 then 31 else 0,
      I := 0x400 }

theorem c1_witness :
    (step c1W).display (64 * ((c1W.V 1 % 256 + 1) % 32) + (c1W.V 0 % 256 + 2) % 64)
      = xor (c1W.display (64 * ((c1W.V 1 % 256 + 1) % 32) + (c1W.V 0 % 256 + 2) % 64))
            (spriteBit c1W.memory (c1W.I + 1) 2 = 1)
    ∧ (step c1W).display (64 * ((c1W.V 1 % 256 + 0) % 32) + (c1W.V 0 % 256 + 3) % 64)
      = xor (c1W.display (64 * ((c1W.V 1 % 256 + 0) % 32) + (c1W.V 0 % 256 + 3) % 64))
            (spriteBit c1W.memory (c1W.I + 0) 3 = 1) :=
  ⟨c1_draw_wrap c1W 0 1 2 (by decide) (by decide) (by decide) (by decide)
      (by decide) (by decide) (by decide) (by decide) 1 2 (by decide) (by decide),
   c1_draw_wrap c1W 0 1 2 (by decide) (by decide) (by decide) (by decide)
      (by decide) (by decide) (by decide) (by decide) 0 3 (by decide) (by decide)⟩
